import Mathlib

/-!
Verification of the filter-and-aggregate pipeline of `supply_chain_dash.py`.

The dashboard loads a supply-chain CSV into a pandas frame `df`, cleans the
currency columns, filters `df` by three sidebar multiselects, and derives
aggregate tables (group-by sums and means, value counts, a Pearson correlation
matrix, `nlargest`) from the filtered view.  The shallow embedding below models
a frame as a `List Row`, a missing numeric value (float NaN) as `none`, and
exact numeric arithmetic over `ℚ`.  Every definition mirrors the corresponding
pandas/numpy operation used by the source.
-/

namespace SupplyChainDash

/-- One record of the loaded table (source columns used by the dashboard).
Categorical columns are strings; numeric measures are `Option ℚ`, where
`none` models a float NaN cell and `some q` a finite value. -/
structure Row where
  productType : String
  location : String
  transportationModes : String
  inspectionResults : String
  price : Option ℚ
  availability : Option ℚ
  numberOfProductsSold : Option ℚ
  revenueGenerated : Option ℚ
  stockLevels : Option ℚ
  leadTimes : Option ℚ
  orderQuantities : Option ℚ
  shippingTimes : Option ℚ
  productionVolumes : Option ℚ
  manufacturingLeadTime : Option ℚ
  defectRates : Option ℚ
  shippingCosts : Option ℚ
  manufacturingCosts : Option ℚ
  costs : Option ℚ
  deriving DecidableEq

/-- A raw cell of a currency-bearing CSV column before cleaning: either a value
pandas already parsed as a number (`num`), a float NaN from a missing entry
(`nan`), or an unparsed text cell (`txt`), e.g. a string with a currency symbol. -/
inductive RawCell where
  | num (q : ℚ)
  | nan
  | txt (s : String)
  deriving DecidableEq

/-- One raw CSV row before `load_data` cleans the five currency columns
(`Price`, `Revenue generated`, `Shipping costs`, `Manufacturing costs`, `Costs`). -/
structure RawRow where
  productType : String
  location : String
  transportationModes : String
  inspectionResults : String
  price : RawCell
  revenueGenerated : RawCell
  shippingCosts : RawCell
  manufacturingCosts : RawCell
  costs : RawCell
  availability : Option ℚ
  numberOfProductsSold : Option ℚ
  stockLevels : Option ℚ
  leadTimes : Option ℚ
  orderQuantities : Option ℚ
  shippingTimes : Option ℚ
  productionVolumes : Option ℚ
  manufacturingLeadTime : Option ℚ
  defectRates : Option ℚ
  deriving DecidableEq

/-- Numeric value of a digit string read left to right (base 10). -/
def digitsVal (ds : List Char) : ℕ :=
  ds.foldl (fun a c => 10 * a + (c.toNat - 48)) 0

/-- Split a character list at the first '.' if any: the characters before it,
and (when a dot occurs) the characters after it. -/
def splitDot : List Char → List Char × Option (List Char)
  | [] => ([], none)
  | c :: cs =>
    if c = '.' then ([], some cs)
    else
      let r := splitDot cs
      (c :: r.1, r.2)

/-- Python `float()` on an unsigned decimal literal: digits with at most one
dot, at least one digit overall.  (Exponent, `inf`/`nan` and underscore forms,
which never arise for currency text, are not modelled.) -/
def parseUnsignedDecimal (cs : List Char) : Option ℚ :=
  match splitDot cs with
  | (intPart, none) =>
    if intPart ≠ [] ∧ intPart.all Char.isDigit then some (digitsVal intPart : ℚ) else none
  | (intPart, some fracPart) =>
    if (intPart ≠ [] ∨ fracPart ≠ []) ∧ intPart.all Char.isDigit ∧ fracPart.all Char.isDigit then
      some ((digitsVal intPart : ℚ) + (digitsVal fracPart : ℚ) / (10 : ℚ) ^ fracPart.length)
    else none

/-- Python `float()` on decimal text, with an optional leading minus sign;
`none` models the `ValueError` raised on text that is not a number. -/
def parseDecimal (s : String) : Option ℚ :=
  match s.toList with
  | '-' :: rest => (parseUnsignedDecimal rest).map (fun q => -q)
  | cs => parseUnsignedDecimal cs

/-- `value.replace('$', '').replace(',', '')` from `clean_currency`
(source lines 42-45): delete every dollar sign and every comma. -/
def stripCurrency (s : String) : List Char :=
  s.toList.filter (fun c => !(c = '$' ∨ c = ','))

/-- `clean_currency` (source lines 42-45): a string cell has '$' and ','
stripped and is given to `float()`, whose `ValueError` on unparseable text is
modelled as `Except.error` carrying the interpreter's message; a cell that is
already a number (or a NaN from a missing entry) passes through unchanged. -/
def clean_currency : RawCell → Except String (Option ℚ)
  | .num q => .ok (some q)
  | .nan => .ok none
  | .txt s =>
    match parseDecimal ⟨stripCurrency s⟩ with
    | some q => .ok (some q)
    | none => .error ("could not convert string to float: " ++ String.mk (stripCurrency s))

/-- A raw currency cell on which `clean_currency` raises: text whose stripped
form is not a number. -/
def malformedCell : RawCell → Bool
  | .txt s => (parseDecimal ⟨stripCurrency s⟩).isNone
  | _ => false

/-- A raw row with at least one malformed currency cell. -/
def hasMalformedCurrency (r : RawRow) : Bool :=
  malformedCell r.price || malformedCell r.revenueGenerated || malformedCell r.shippingCosts ||
    malformedCell r.manufacturingCosts || malformedCell r.costs

/-- Clean the five currency cells of one raw row (the `df[col].apply(clean_currency)`
loop of `load_data`, source lines 47-49, restricted to one row; the source
iterates column by column, which only changes which of several errors
surfaces first, not whether the load fails). -/
def cleanRow (r : RawRow) : Except String Row :=
  match clean_currency r.price with
  | .error e => .error e
  | .ok price =>
    match clean_currency r.revenueGenerated with
    | .error e => .error e
    | .ok rev =>
      match clean_currency r.shippingCosts with
      | .error e => .error e
      | .ok ship =>
        match clean_currency r.manufacturingCosts with
        | .error e => .error e
        | .ok manu =>
          match clean_currency r.costs with
          | .error e => .error e
          | .ok costs =>
            .ok ⟨r.productType, r.location, r.transportationModes, r.inspectionResults,
              price, r.availability, r.numberOfProductsSold, rev, r.stockLevels,
              r.leadTimes, r.orderQuantities, r.shippingTimes, r.productionVolumes,
              r.manufacturingLeadTime, r.defectRates, ship, manu, costs⟩

/-- Sequence a fallible cleaning step over a list of rows, stopping at the
first error (an uncaught Python exception aborts the whole load). -/
def mapExcept (f : α → Except String β) : List α → Except String (List β)
  | [] => .ok []
  | a :: as =>
    match f a with
    | .error e => .error e
    | .ok b =>
      match mapExcept f as with
      | .error e => .error e
      | .ok bs => .ok (b :: bs)

/-- `load_data` (source lines 37-51): read the CSV and clean the currency
columns; any cleaning error aborts the load. -/
def load_data (rows : List RawRow) : Except String (List Row) :=
  mapExcept cleanRow rows

/-- Module start-up (source line 53 onward): `df = load_data()` runs at module
top level, so a load error propagates and no part of the dashboard is built;
on success the dataset and its first derived tables are produced. -/
def startup (rows : List RawRow) : Except String (List Row) :=
  match load_data rows with
  | .error e => .error e
  | .ok df => .ok df

/-- `df[col].isin(sel)` for a categorical column: the boolean mask, one entry
per row in order. -/
def isinMask (d : List Row) (col : Row → String) (sel : List String) : List Bool :=
  d.map fun r => sel.contains (col r)

/-- `&` on two boolean masks (pointwise conjunction). -/
def andMask (m₁ m₂ : List Bool) : List Bool :=
  List.zipWith and m₁ m₂

/-- `df[mask]`: keep the rows whose mask entry is `true`, in order. -/
def selectRows : List Row → List Bool → List Row
  | [], _ => []
  | _ :: _, [] => []
  | r :: rs, b :: bs => if b then r :: selectRows rs bs else selectRows rs bs

/-- `df_filtered` (source lines 80-84): boolean-mask selection by the
conjunction of the three `isin` masks. -/
def df_filtered (d : List Row) (productTypes locations transportModes : List String) : List Row :=
  selectRows d
    (andMask
      (andMask (isinMask d Row.productType productTypes) (isinMask d Row.location locations))
      (isinMask d Row.transportationModes transportModes))

/-- The row predicate the three masks jointly express: membership of the row's
`Product Type`, `Location` and `Transportation modes` in the respective
selection sets. -/
def rowPred (productTypes locations transportModes : List String) (r : Row) : Bool :=
  (productTypes.contains r.productType && locations.contains r.location) &&
    transportModes.contains r.transportationModes

/-- `df[col].unique()`: the distinct observed values of a categorical column in
first-occurrence order (the sidebar options and defaults, source lines 61-77). -/
def uniqueVals (d : List Row) (col : Row → String) : List String :=
  (d.map col).dedup

/-- The values of one numeric column of a view, in row order. -/
def colVals (view : List Row) (col : Row → Option ℚ) : List (Option ℚ) :=
  view.map col

/-- Discard the NaN entries of a column (pandas `skipna` behaviour). -/
def dropNone (xs : List (Option ℚ)) : List ℚ :=
  xs.filterMap id

/-- `series.sum()`: sum of the non-null values; the empty sum is 0. -/
def colSum (view : List Row) (col : Row → Option ℚ) : ℚ :=
  (dropNone (colVals view col)).sum

/-- `series.mean()`: mean of the non-null values, NaN (`none`) when there are
none. -/
def colMean (view : List Row) (col : Row → Option ℚ) : Option ℚ :=
  let vs := dropNone (colVals view col)
  if vs.length = 0 then none else some (vs.sum / (vs.length : ℚ))

/-- `(df_filtered[col] == v).sum()`: how many rows of the view carry value `v`
in a categorical column. -/
def countEq (view : List Row) (col : Row → String) (v : String) : ℕ :=
  (view.filter fun r => col r == v).length

/-- The Pass-rate summary (source line 529):
`(df_filtered['Inspection results'] == 'Pass').sum() / len(df_filtered) * 100`.
On an empty view numpy scalar division by zero yields NaN (with a warning, not
an exception), modelled as `none`. -/
def passRate (view : List Row) : Option ℚ :=
  if view.length = 0 then none
  else some ((countEq view Row.inspectionResults "Pass" : ℚ) / (view.length : ℚ) * 100)

/-- The Fail-rate summary (source line 530), as `passRate`. -/
def failRate (view : List Row) : Option ℚ :=
  if view.length = 0 then none
  else some ((countEq view Row.inspectionResults "Fail" : ℚ) / (view.length : ℚ) * 100)

/-- `total_revenue` (source line 91): `df_filtered['Revenue generated'].sum()`. -/
def total_revenue (view : List Row) : ℚ :=
  colSum view Row.revenueGenerated

/-- The distinct group keys a group-by produces for a view.  (pandas sorts the
keys; the claims checked here are insensitive to key order, so the embedding
keeps first-occurrence order.) -/
def groupKeys (view : List Row) (col : Row → String) : List String :=
  (view.map col).dedup

/-- `view.groupby(keyCol)[valCol].sum()`: one entry per distinct key, carrying
the `skipna` sum of the measure over that key's rows. -/
def groupBySum (view : List Row) (keyCol : Row → String) (valCol : Row → Option ℚ) :
    List (String × ℚ) :=
  (groupKeys view keyCol).map fun k => (k, colSum (view.filter fun r => keyCol r == k) valCol)

/-- `revenue_by_product` (source line 118):
`df_filtered.groupby('Product Type')['Revenue generated'].sum()`. -/
def revenue_by_product (view : List Row) : List (String × ℚ) :=
  groupBySum view Row.productType Row.revenueGenerated

/-- The rows on which both columns are non-null, paired up (the pairwise
NaN-masking of pandas `nancorr`). -/
def pairedVals : List (Option ℚ) → List (Option ℚ) → List (ℚ × ℚ)
  | x :: xs, y :: ys =>
    match x, y with
    | some a, some b => (a, b) :: pairedVals xs ys
    | _, _ => pairedVals xs ys
  | _, _ => []

/-- One cell of `DataFrame.corr()` (pandas `nancorr`): over the pairwise
complete rows it computes `num = nobs*sumxy - sumx*sumy` and
`den = (nobs*sumxx - sumx^2) * (nobs*sumyy - sumy^2)` and returns
`num / sqrt(den)`, or NaN when the divisor is zero (which subsumes fewer than
two complete rows and constant columns).  To stay in exact arithmetic the
finite value `num / sqrt den` is represented by the pair `(num, den)`
(`den > 0` whenever `some` is returned, so the pair determines the value);
NaN is `none`. -/
def corrCell (xs ys : List (Option ℚ)) : Option (ℚ × ℚ) :=
  let ps := pairedVals xs ys
  let n : ℚ := ps.length
  let sx := (ps.map Prod.fst).sum
  let sy := (ps.map Prod.snd).sum
  let sxx := (ps.map fun p => p.1 * p.1).sum
  let syy := (ps.map fun p => p.2 * p.2).sum
  let sxy := (ps.map fun p => p.1 * p.2).sum
  let den := (n * sxx - sx * sx) * (n * syy - sy * sy)
  if den = 0 then none else some (n * sxy - sx * sy, den)

/-- The represented correlation value `num / sqrt den` is exactly 1.0 iff the
numerator is positive and its square is the divisor; NaN is never 1.0. -/
def cellIsOne : Option (ℚ × ℚ) → Prop
  | some p => 0 < p.1 ∧ p.1 * p.1 = p.2
  | none => False

/-- `numeric_cols` (source lines 388-390): the fixed column list of the
correlation heatmap. -/
def numeric_cols : List (Row → Option ℚ) :=
  [Row.price, Row.availability, Row.numberOfProductsSold, Row.revenueGenerated,
   Row.stockLevels, Row.leadTimes, Row.orderQuantities, Row.shippingTimes,
   Row.productionVolumes, Row.manufacturingLeadTime, Row.defectRates]

/-- The `i`-th column of `df_filtered[numeric_cols]` as a value list. -/
def corrColumn (view : List Row) (i : ℕ) : List (Option ℚ) :=
  colVals view (numeric_cols.getD i (fun _ => none))

/-- `correlation_matrix` (source line 392): `df_filtered[numeric_cols].corr()`,
indexed by column positions. -/
def correlation_matrix (view : List Row) (i j : ℕ) : Option (ℚ × ℚ) :=
  corrCell (corrColumn view i) (corrColumn view j)

/-- The ranking value `nlargest` sorts by; only applied to rows whose order
column is non-null. -/
def keyVal (k : Row → Option ℚ) (r : Row) : ℚ :=
  (k r).getD 0

/-- Comparison for the descending stable sort of `nlargest`: `a` may precede
`b` when `b`'s key is at most `a`'s. -/
def descLe (k : Row → Option ℚ) (a b : Row) : Bool :=
  decide (keyVal k b ≤ keyVal k a)

/-- A row qualifies for `nlargest` when its order column is non-null
(`nlargest` drops NaN rows first). -/
def qualifies (k : Row → Option ℚ) (r : Row) : Bool :=
  (k r).isSome

/-- `DataFrame.nlargest(n, col)` with the default `keep='first'`: drop the rows
whose order column is NaN, sort the rest descending by that column with a
stable sort (ties keep original order), and take the first `n`. -/
def nlargest (view : List Row) (n : ℕ) (k : Row → Option ℚ) : List Row :=
  ((view.filter (qualifies k)).mergeSort (descLe k)).take n

/-- `top_products` (source line 325): `df_filtered.nlargest(10, 'Revenue generated')`. -/
def top_products (view : List Row) : List Row :=
  nlargest view 10 Row.revenueGenerated

/-- The three sidebar multiselect values of one interaction. -/
structure Selections where
  productTypes : List String
  locations : List String
  transportModes : List String
  deriving DecidableEq

/-- The derived tables one recomputation produces for the presentation layer. -/
structure Outputs where
  view : List Row
  revenueByProduct : List (String × ℚ)
  totalRevenue : ℚ
  passRateOut : Option ℚ
  topProducts : List Row
  deriving DecidableEq

/-- One dashboard recomputation (the whole script body below line 53): filter
`df` by the current selections and derive the aggregate tables.  pandas
boolean-mask selection, `groupby`, `corr` and `nlargest` all return new
objects; `df` is never reassigned or mutated in place (the only in-place
updates in the source, `transport_dist.columns = ...` and
`metrics_by_product[col] = ...`, target derived copies), so the state after
the run carries `df` through unchanged. -/
def recompute (df : List Row) (s : Selections) : List Row × Outputs :=
  let view := df_filtered df s.productTypes s.locations s.transportModes
  (df, ⟨view, revenue_by_product view, total_revenue view, passRate view, top_products view⟩)

/-- A sequence of user interactions: each filter change triggers one full
recomputation over the dataset left by the previous one. -/
def runInteractions (df : List Row) (ss : List Selections) : List Row :=
  ss.foldl (fun d s => (recompute d s).1) df

/-- A concrete row with every numeric measure present; used to instantiate
hypotheses and to exhibit counterexamples. -/
def sampleRow : Row :=
  ⟨"haircare", "Mumbai", "Road", "Pass", some 1, some 2, some 3, some 5, some 4,
   some 6, some 7, some 8, some 9, some 10, some 11, some 12, some 13, some 14⟩

/-- A second concrete row with a different product type and revenue. -/
def sampleRow2 : Row :=
  ⟨"skincare", "Delhi", "Rail", "Fail", some 2, some 3, some 4, some 20, some 5,
   some 7, some 8, some 9, some 10, some 11, some 12, some 13, some 14, some 15⟩

/-- A raw row whose `Price` cell is text that is not a number. -/
def badRow : RawRow :=
  ⟨"haircare", "Mumbai", "Road", "Pass", .txt "abc", .num 5, .num 12, .num 13, .num 14,
   some 2, some 3, some 4, some 6, some 7, some 8, some 9, some 10, some 11⟩

/-! ## Helper lemmas on the filtering pipeline -/

theorem contains_iff (l : List String) (a : String) : l.contains a ↔ a ∈ l :=
  List.elem_iff

theorem andMask_map (d : List Row) (p q : Row → Bool) :
    andMask (d.map p) (d.map q) = d.map fun r => p r && q r := by
  induction d with
  | nil => rfl
  | cons r rs ih => simp [andMask, ih]

theorem selectRows_map (d : List Row) (p : Row → Bool) :
    selectRows d (d.map p) = d.filter p := by
  induction d with
  | nil => rfl
  | cons r rs ih => cases h : p r <;> simp [selectRows, List.filter_cons, h, ih]

theorem df_filtered_eq_filter (d : List Row) (pt lc tm : List String) :
    df_filtered d pt lc tm = d.filter (rowPred pt lc tm) := by
  unfold df_filtered isinMask
  rw [andMask_map, andMask_map, selectRows_map]
  rfl

theorem contains_erase_of_ne {l : List String} {a v : String} (h : a ≠ v) :
    (l.erase v).contains a = l.contains a := by
  by_cases hm : a ∈ l
  · have h1 : (l.erase v).contains a := (contains_iff _ _).mpr ((List.mem_erase_of_ne h).mpr hm)
    have h2 : l.contains a := (contains_iff _ _).mpr hm
    rw [h1, h2]
  · have h1 : ¬ (l.erase v).contains a = true := fun hc =>
      hm ((List.mem_erase_of_ne h).mp ((contains_iff _ _).mp hc))
    have h2 : ¬ l.contains a = true := fun hc => hm ((contains_iff _ _).mp hc)
    rw [Bool.not_eq_true] at h1 h2
    rw [h1, h2]

/-! ## Claim theorems -/

/-- C1: for every dataset and every triple of selection sets, the filtered view
is exactly the ordered subsequence of dataset rows whose `Product Type`,
`Location` and `Transportation modes` each lie in the corresponding selection
set (`List.filter` keeps exactly the matching rows in original order), and the
view is a subsequence of the dataset, so original row order is preserved.  The
embedding is purely functional, mirroring that pandas boolean-mask selection
builds a new frame and leaves the dataset unchanged. -/
theorem df_filtered_is_ordered_subsequence (d : List Row) (pt lc tm : List String) :
    df_filtered d pt lc tm =
      d.filter (fun r => (pt.contains r.productType && lc.contains r.location) &&
        tm.contains r.transportationModes) ∧
    (df_filtered d pt lc tm).Sublist d := by
  refine ⟨by rw [df_filtered_eq_filter]; rfl, ?_⟩
  rw [df_filtered_eq_filter]
  exact List.filter_sublist d

/-- C6: for every dataset, filtering with the full domain of observed values of
each of the three columns (`df[col].unique()`, the sidebar defaults) returns
the full dataset with original row order preserved. -/
theorem full_domain_filter_identity (d : List Row) :
    df_filtered d (uniqueVals d Row.productType) (uniqueVals d Row.location)
      (uniqueVals d Row.transportationModes) = d := by
  rw [df_filtered_eq_filter]
  apply List.filter_eq_self.mpr
  intro r hr
  simp only [rowPred, Bool.and_eq_true, contains_iff, uniqueVals, List.mem_dedup]
  exact ⟨⟨List.mem_map_of_mem _ hr, List.mem_map_of_mem _ hr⟩, List.mem_map_of_mem _ hr⟩

/-- C8: a selected value that does not occur in the corresponding column
matches zero rows: the filtered view is unchanged when the stale value is
removed from the selection set.  `isin` is total, so a stale value can never
raise; the embedding's total functions reflect that. -/
theorem stale_selection_matches_zero_rows (d : List Row) (pt lc tm : List String) (v : String) :
    (v ∉ d.map Row.productType →
      df_filtered d pt lc tm = df_filtered d (pt.erase v) lc tm) ∧
    (v ∉ d.map Row.location →
      df_filtered d pt lc tm = df_filtered d pt (lc.erase v) tm) ∧
    (v ∉ d.map Row.transportationModes →
      df_filtered d pt lc tm = df_filtered d pt lc (tm.erase v)) := by
  refine ⟨fun hv => ?_, fun hv => ?_, fun hv => ?_⟩ <;>
    rw [df_filtered_eq_filter, df_filtered_eq_filter] <;>
    refine List.filter_congr fun r hr => ?_ <;>
    simp only [rowPred] <;>
    rw [contains_erase_of_ne (fun he => hv (by rw [← he]; exact List.mem_map_of_mem _ hr))]

/-- C8 witness: with a one-row dataset of product type `haircare`, adding the
stale value `toys` to the product-type selection leaves the view unchanged. -/
theorem stale_selection_witness :
    df_filtered [sampleRow] ["haircare", "toys"] ["Mumbai"] ["Road"] =
      df_filtered [sampleRow] (["haircare", "toys"].erase "toys") ["Mumbai"] ["Road"] :=
  (stale_selection_matches_zero_rows [sampleRow] ["haircare", "toys"] ["Mumbai"] ["Road"]
    "toys").1 (by decide)

/-- C10: filtering is monotone in the selection sets: enlarging each of the
three selection sets can only enlarge the filtered view, and the smaller view
is a subsequence of the larger one. -/
theorem filter_monotone_in_selections (d : List Row) (pt₁ pt₂ lc₁ lc₂ tm₁ tm₂ : List String)
    (h₁ : pt₁ ⊆ pt₂) (h₂ : lc₁ ⊆ lc₂) (h₃ : tm₁ ⊆ tm₂) :
    (df_filtered d pt₁ lc₁ tm₁).Sublist (df_filtered d pt₂ lc₂ tm₂) := by
  rw [df_filtered_eq_filter, df_filtered_eq_filter]
  apply List.monotone_filter_right
  intro r hr
  simp only [rowPred, Bool.and_eq_true, contains_iff] at hr ⊢
  exact ⟨⟨h₁ hr.1.1, h₂ hr.1.2⟩, h₃ hr.2⟩

/-- C10 witness: on a concrete two-row dataset, the view for the smaller
selections is a subsequence of the view for the larger ones. -/
theorem filter_monotone_witness :
    (df_filtered [sampleRow, sampleRow2] ["haircare"] ["Mumbai"] ["Road"]).Sublist
      (df_filtered [sampleRow, sampleRow2] ["haircare", "skincare"] ["Mumbai", "Delhi"]
        ["Road", "Rail"]) :=
  filter_monotone_in_selections [sampleRow, sampleRow2] _ _ _ _ _ _
    (by decide) (by decide) (by decide)

/-! ## Sum and group-by lemmas -/

theorem colSum_cons (r : Row) (d : List Row) (k : Row → Option ℚ) :
    colSum (r :: d) k = (k r).getD 0 + colSum d k := by
  cases h : k r <;> simp [colSum, colVals, dropNone, h]

theorem sum_map_add (keys : List String) (f g : String → ℚ) :
    (keys.map fun key => f key + g key).sum = (keys.map f).sum + (keys.map g).sum := by
  induction keys with
  | nil => simp
  | cons x keys ih => simp [ih]; ring

theorem sum_if_single (keys : List String) (a : String) (c : ℚ)
    (hnd : keys.Nodup) (ha : a ∈ keys) :
    (keys.map fun key => if a = key then c else 0).sum = c := by
  induction keys with
  | nil => cases ha
  | cons x keys ih =>
    rcases List.mem_cons.mp ha with h | h
    · subst h
      have hz : (keys.map fun key => if a = key then c else 0).sum = 0 :=
        List.sum_eq_zero fun y hy => by
          obtain ⟨key, hkey, hyeq⟩ := List.mem_map.mp hy
          have hne : a ≠ key := fun he => (List.nodup_cons.mp hnd).1 (he ▸ hkey)
          rw [← hyeq, if_neg hne]
      simp [hz]
    · have hne : a ≠ x := fun he => (List.nodup_cons.mp hnd).1 (he ▸ h)
      simp only [List.map_cons, List.sum_cons, if_neg hne,
        ih (List.nodup_cons.mp hnd).2 h, zero_add]

theorem colSum_partition (d : List Row) (g : Row → String) (k : Row → Option ℚ)
    (keys : List String) (hnd : keys.Nodup) (hcov : ∀ r ∈ d, g r ∈ keys) :
    (keys.map fun key => colSum (d.filter fun r => g r == key) k).sum = colSum d k := by
  induction d with
  | nil => simp [colSum, colVals, dropNone, List.sum_eq_zero]
  | cons r d ih =>
    have hg : g r ∈ keys := hcov r (List.mem_cons_self r d)
    have step : (fun key => colSum ((r :: d).filter fun x => g x == key) k) =
        fun key => (if g r = key then (k r).getD 0 else 0) +
          colSum (d.filter fun x => g x == key) k := by
      funext key
      by_cases h : g r = key
      · simp [List.filter_cons, h, colSum_cons]
      · simp [List.filter_cons, h]
    rw [step, sum_map_add, sum_if_single keys (g r) _ hnd hg,
      ih fun x hx => hcov x (List.mem_cons_of_mem r hx), colSum_cons]

/-- C5: summing a sum-based grouped aggregate over all its groups gives the
grand total of the measure over the whole dataset: the distinct group keys
cover every row exactly once, so no row is dropped or double-counted.  In
particular the `Revenue generated` totals of the `Product Type` groups add up
to `total_revenue`. -/
theorem group_sums_equal_grand_total (d : List Row) (g : Row → String) (k : Row → Option ℚ) :
    ((groupBySum d g k).map Prod.snd).sum = colSum d k ∧
    ((revenue_by_product d).map Prod.snd).sum = total_revenue d := by
  have main : ∀ (g' : Row → String) (k' : Row → Option ℚ),
      ((groupBySum d g' k').map Prod.snd).sum = colSum d k' := by
    intro g' k'
    unfold groupBySum
    rw [List.map_map]
    exact colSum_partition d g' k' (groupKeys d g') (List.nodup_dedup _)
      fun r hr => List.mem_dedup.mpr (List.mem_map_of_mem _ hr)
  exact ⟨main g k, main Row.productType Row.revenueGenerated⟩

/-- C2: with all three selection sets empty the filtered view is empty, and
each aggregate computed from it in the source yields an empty table
(`revenue_by_product`, `top_products`) or a NaN value (`colMean`, `passRate`,
`failRate`, every cell of `correlation_matrix`).  All these are total
functions: emptiness never raises (in the source, pandas returns empty/NaN
results and numpy division by zero produces NaN with a warning, not an
exception). -/
theorem empty_selections_empty_view_and_aggregates (d : List Row) :
    df_filtered d [] [] [] = [] ∧
    revenue_by_product (df_filtered d [] [] []) = [] ∧
    colMean (df_filtered d [] [] []) Row.defectRates = none ∧
    passRate (df_filtered d [] [] []) = none ∧
    failRate (df_filtered d [] [] []) = none ∧
    (∀ i j, correlation_matrix (df_filtered d [] [] []) i j = none) ∧
    top_products (df_filtered d [] [] []) = [] := by
  have hv : df_filtered d [] [] [] = [] := by
    rw [df_filtered_eq_filter]
    simp [rowPred]
  rw [hv]
  refine ⟨rfl, rfl, rfl, rfl, rfl, fun i j => ?_, ?_⟩
  · show corrCell [] [] = none
    simp [corrCell, pairedVals]
  · simp [top_products, nlargest]

/-! ## nlargest lemmas -/

theorem descLe_trans (k : Row → Option ℚ) :
    ∀ a b c : Row, descLe k a b → descLe k b c → descLe k a c := by
  intro a b c hab hbc
  simp only [descLe, decide_eq_true_eq] at *
  exact le_trans hbc hab

theorem descLe_total (k : Row → Option ℚ) : ∀ a b : Row, descLe k a b || descLe k b a := by
  intro a b
  simp only [descLe, Bool.or_eq_true, decide_eq_true_eq]
  exact le_total _ _

/-- C4: `nlargest` returns at most `n` rows, all drawn from the view with a
non-null order column, sorted descending by that column; when the view has at
most `n` qualifying rows they are all returned; the sort is stable, so rows
with tied order values stay in original view order; and `top_products` is its
instantiation at `n = 10` over `Revenue generated`. -/
theorem nlargest_spec (view : List Row) (n : ℕ) (k : Row → Option ℚ) :
    (nlargest view n k).length ≤ n ∧
    (∀ r ∈ nlargest view n k, r ∈ view ∧ (k r).isSome) ∧
    (nlargest view n k).Pairwise (fun a b => keyVal k b ≤ keyVal k a) ∧
    ((view.filter (qualifies k)).length ≤ n →
      ∀ r ∈ view, (k r).isSome → r ∈ nlargest view n k) ∧
    (∀ a b : Row, keyVal k a = keyVal k b → [a, b].Sublist (view.filter (qualifies k)) →
      [a, b].Sublist ((view.filter (qualifies k)).mergeSort (descLe k))) ∧
    top_products view = nlargest view 10 Row.revenueGenerated := by
  refine ⟨List.length_take_le n _, ?_, ?_, ?_, ?_, rfl⟩
  · intro r hr
    have h1 : r ∈ (view.filter (qualifies k)).mergeSort (descLe k) := List.mem_of_mem_take hr
    have h2 := List.mem_filter.mp (List.mem_mergeSort.mp h1)
    exact ⟨h2.1, by simpa [qualifies] using h2.2⟩
  · have hs : ((view.filter (qualifies k)).mergeSort (descLe k)).Pairwise
        (fun a b => descLe k a b) :=
      List.sorted_mergeSort (descLe_trans k) (descLe_total k) _
    have ht := hs.sublist (List.take_sublist n _)
    exact ht.imp fun h => by simpa [descLe] using h
  · intro hlen r hr hsome
    have hq : r ∈ view.filter (qualifies k) :=
      List.mem_filter.mpr ⟨hr, by simpa [qualifies] using hsome⟩
    have hlen2 : ((view.filter (qualifies k)).mergeSort (descLe k)).length ≤ n := by
      rw [List.length_mergeSort]; exact hlen
    unfold nlargest
    rw [List.take_of_length_le hlen2]
    exact List.mem_mergeSort.mpr hq
  · intro a b hk hsub
    exact List.pair_sublist_mergeSort (descLe_trans k) (descLe_total k)
      (by simp [descLe, hk]) hsub

/-- C4 witness: on a concrete two-row view with tied revenues and `n = 5`,
every qualifying row is returned and the tied pair keeps its original order in
the sorted qualifying list. -/
theorem nlargest_spec_witness :
    sampleRow ∈ nlargest [sampleRow, sampleRow] 5 Row.revenueGenerated ∧
    [sampleRow, sampleRow].Sublist
      (([sampleRow, sampleRow].filter (qualifies Row.revenueGenerated)).mergeSort
        (descLe Row.revenueGenerated)) :=
  ⟨(nlargest_spec [sampleRow, sampleRow] 5 Row.revenueGenerated).2.2.2.1 (by decide)
      sampleRow (by decide) (by decide),
   (nlargest_spec [sampleRow, sampleRow] 5 Row.revenueGenerated).2.2.2.2.1 sampleRow sampleRow
      rfl (by decide)⟩

/-- C9: the loaded dataset is never mutated: one recomputation hands the
dataset through unchanged, and any sequence of filter recomputations leaves it
equal to its value at load time. -/
theorem dataset_never_mutated (df : List Row) (ss : List Selections) :
    runInteractions df ss = df ∧ ∀ s : Selections, (recompute df s).1 = df := by
  have main : ∀ (ss : List Selections) (df : List Row), runInteractions df ss = df := by
    intro ss
    induction ss with
    | nil => intro df; rfl
    | cons s ss ih => intro df; exact ih df
  exact ⟨main ss df, fun s => rfl⟩

/-! ## Correlation matrix lemmas -/

theorem pairedVals_swap (xs ys : List (Option ℚ)) :
    pairedVals ys xs = (pairedVals xs ys).map fun p => (p.2, p.1) := by
  induction xs generalizing ys with
  | nil => cases ys <;> rfl
  | cons x xs ih =>
    cases ys with
    | nil => rfl
    | cons y ys => cases x <;> cases y <;> simp [pairedVals, ih]

theorem pairedVals_self (xs : List (Option ℚ)) :
    pairedVals xs xs = (dropNone xs).map fun a => (a, a) := by
  induction xs with
  | nil => rfl
  | cons x xs ih => cases x <;> simp [pairedVals, dropNone, List.filterMap_cons, ih]

theorem cs_step (x s q n : ℚ) (hn : 1 ≤ n) (ih : s * s ≤ n * q) :
    (x + s) * (x + s) ≤ (n + 1) * (x * x + q) := by
  nlinarith [sq_nonneg (n * x - s), ih, hn, sq_nonneg (x - s), sq_nonneg (x + s)]

theorem sum_mul_self_le (l : List ℚ) :
    l.sum * l.sum ≤ (l.length : ℚ) * (l.map fun a => a * a).sum := by
  induction l with
  | nil => simp
  | cons x xs ih =>
    rcases xs with _ | ⟨y, ys⟩
    · simp
    · have hn : (1 : ℚ) ≤ ((y :: ys).length : ℚ) := by
        have h1 : 1 ≤ (y :: ys).length := Nat.succ_le_succ (Nat.zero_le _)
        exact_mod_cast h1
      have hlen : (((x :: y :: ys).length : ℚ)) = ((y :: ys).length : ℚ) + 1 := by
        push_cast [List.length_cons]
        ring
      rw [show (x :: y :: ys).sum = x + (y :: ys).sum from List.sum_cons,
        show ((x :: y :: ys).map fun a => a * a).sum = x * x + ((y :: ys).map fun a => a * a).sum
          from by rw [List.map_cons, List.sum_cons], hlen]
      exact cs_step x (y :: ys).sum (((y :: ys).map fun a => a * a).sum) _ hn ih

theorem symm_cell_eq (n sx sy sxx syy sxy : ℚ) :
    (if (n * sxx - sx * sx) * (n * syy - sy * sy) = 0 then (none : Option (ℚ × ℚ))
     else some (n * sxy - sx * sy, (n * sxx - sx * sx) * (n * syy - sy * sy)))
    = (if (n * syy - sy * sy) * (n * sxx - sx * sx) = 0 then none
     else some (n * sxy - sy * sx, (n * syy - sy * sy) * (n * sxx - sx * sx))) := by
  rw [mul_comm (n * syy - sy * sy) (n * sxx - sx * sx), mul_comm sy sx]

theorem corrCell_symm (xs ys : List (Option ℚ)) : corrCell xs ys = corrCell ys xs := by
  have hc1 : (Prod.fst ∘ fun p : ℚ × ℚ => (p.2, p.1)) = Prod.snd := rfl
  have hc2 : (Prod.snd ∘ fun p : ℚ × ℚ => (p.2, p.1)) = Prod.fst := rfl
  have hc3 : ((fun p : ℚ × ℚ => p.1 * p.1) ∘ fun p : ℚ × ℚ => (p.2, p.1)) =
      fun p : ℚ × ℚ => p.2 * p.2 := rfl
  have hc4 : ((fun p : ℚ × ℚ => p.2 * p.2) ∘ fun p : ℚ × ℚ => (p.2, p.1)) =
      fun p : ℚ × ℚ => p.1 * p.1 := rfl
  have hc5 : ((fun p : ℚ × ℚ => p.1 * p.2) ∘ fun p : ℚ × ℚ => (p.2, p.1)) =
      fun p : ℚ × ℚ => p.2 * p.1 := rfl
  have hc6 : (fun p : ℚ × ℚ => p.2 * p.1) = fun p : ℚ × ℚ => p.1 * p.2 :=
    funext fun p => mul_comm _ _
  simp only [corrCell, pairedVals_swap xs ys, List.length_map, List.map_map,
    hc1, hc2, hc3, hc4, hc5, hc6]
  exact (symm_cell_eq _ _ _ _ _ _).symm

theorem diag_cell (n s q : ℚ) (hcs : 0 ≤ n * q - s * s) :
    (if (n * q - s * s) * (n * q - s * s) = 0 then (none : Option (ℚ × ℚ))
     else some (n * q - s * s, (n * q - s * s) * (n * q - s * s))) = none ∨
    cellIsOne (if (n * q - s * s) * (n * q - s * s) = 0 then (none : Option (ℚ × ℚ))
     else some (n * q - s * s, (n * q - s * s) * (n * q - s * s))) := by
  by_cases h : (n * q - s * s) * (n * q - s * s) = 0
  · left; rw [if_pos h]
  · right
    rw [if_neg h]
    have hne : n * q - s * s ≠ 0 := fun h0 => h (by rw [h0]; ring)
    exact ⟨lt_of_le_of_ne hcs (Ne.symm hne), rfl⟩

theorem corrCell_self_form (xs : List (Option ℚ)) :
    ∃ n s q : ℚ, 0 ≤ n * q - s * s ∧
      corrCell xs xs =
        if (n * q - s * s) * (n * q - s * s) = 0 then none
        else some (n * q - s * s, (n * q - s * s) * (n * q - s * s)) := by
  have hc1 : (Prod.fst ∘ fun a : ℚ => (a, a)) = fun a : ℚ => a := rfl
  have hc2 : (Prod.snd ∘ fun a : ℚ => (a, a)) = fun a : ℚ => a := rfl
  have hc3 : ((fun p : ℚ × ℚ => p.1 * p.1) ∘ fun a : ℚ => (a, a)) = fun a : ℚ => a * a := rfl
  have hc4 : ((fun p : ℚ × ℚ => p.2 * p.2) ∘ fun a : ℚ => (a, a)) = fun a : ℚ => a * a := rfl
  have hc5 : ((fun p : ℚ × ℚ => p.1 * p.2) ∘ fun a : ℚ => (a, a)) = fun a : ℚ => a * a := rfl
  refine ⟨((dropNone xs).length : ℚ), (dropNone xs).sum,
    ((dropNone xs).map fun a => a * a).sum,
    sub_nonneg.mpr (sum_mul_self_le (dropNone xs)), ?_⟩
  simp only [corrCell, pairedVals_self, List.length_map, List.map_map,
    hc1, hc2, hc3, hc4, hc5, List.map_id']

theorem corrCell_diag (xs : List (Option ℚ)) :
    corrCell xs xs = none ∨ cellIsOne (corrCell xs xs) := by
  obtain ⟨n, s, q, hcs, hform⟩ := corrCell_self_form xs
  rw [hform]
  exact diag_cell n s q hcs

theorem corrCell_degenerate (xs ys : List (Option ℚ)) (h : (pairedVals xs ys).length < 2) :
    corrCell xs ys = none := by
  rcases hps : pairedVals xs ys with _ | ⟨p, _ | ⟨p', rest⟩⟩
  · simp [corrCell, hps]
  · simp [corrCell, hps]
  · rw [hps] at h
    simp at h
    omega

/-- C3 counterexample: the claim "every diagonal entry is exactly 1.0 for any
non-empty view" is false on the code: on the non-empty one-row view
`[sampleRow]` every column has only one observation, so pandas' divisor is
zero and the (0,0) diagonal cell is the NaN marker (`none`), not 1.0. -/
theorem corr_diagonal_not_one_counterexample :
    ¬ (∀ view : List Row, view ≠ [] → ∀ i, i < numeric_cols.length →
      cellIsOne (correlation_matrix view i i)) := by
  intro h
  have h1 := h [sampleRow] (by simp) 0 (by decide)
  rw [show correlation_matrix [sampleRow] 0 0 = none from
    corrCell_degenerate _ _ (by decide)] at h1
  exact h1

/-- C3 (amended): for every filtered view the correlation matrix is symmetric
(cell (i,j) equals cell (j,i)); every diagonal entry is either exactly 1.0 or
the well-defined NaN marker (NaN exactly when the column's divisor is zero,
e.g. fewer than two non-null rows or a constant column); and any cell whose
pair of columns has fewer than two jointly non-null rows is the NaN marker
rather than an exception. -/
theorem correlation_matrix_symm_diag (view : List Row) :
    (∀ i j, correlation_matrix view i j = correlation_matrix view j i) ∧
    (∀ i, correlation_matrix view i i = none ∨ cellIsOne (correlation_matrix view i i)) ∧
    (∀ i j, (pairedVals (corrColumn view i) (corrColumn view j)).length < 2 →
      correlation_matrix view i j = none) :=
  ⟨fun _ _ => corrCell_symm _ _, fun _ => corrCell_diag _,
    fun _ _ h => corrCell_degenerate _ _ h⟩

/-- C3 witness: on the concrete one-row view the (0,1) cell has one non-null
row pair, and the amended theorem yields the NaN marker there. -/
theorem correlation_matrix_symm_diag_witness :
    correlation_matrix [sampleRow] 0 1 = none :=
  (correlation_matrix_symm_diag [sampleRow]).2.2 0 1 (by decide)

/-! ## Load and currency-cleaning lemmas -/

theorem malformed_of_ok (c : RawCell) (v : Option ℚ) (h : clean_currency c = .ok v) :
    malformedCell c = false := by
  cases c with
  | num q => rfl
  | nan => rfl
  | txt s =>
    cases hp : parseDecimal ⟨stripCurrency s⟩ with
    | none => simp [clean_currency, hp] at h
    | some q => simp [malformedCell, hp]

theorem malformed_of_error (c : RawCell) (m : String) (h : clean_currency c = .error m) :
    malformedCell c = true ∧ ∃ t, m = "could not convert string to float: " ++ t := by
  cases c with
  | num q => simp [clean_currency] at h
  | nan => simp [clean_currency] at h
  | txt s =>
    cases hp : parseDecimal ⟨stripCurrency s⟩ with
    | none =>
      simp only [clean_currency, hp] at h
      refine ⟨by simp [malformedCell, hp], String.mk (stripCurrency s), ?_⟩
      cases h
      rfl
    | some q => simp [clean_currency, hp] at h

theorem cleanRow_cases (r : RawRow) :
    (∃ m, cleanRow r = .error m ∧ (∃ t, m = "could not convert string to float: " ++ t) ∧
      hasMalformedCurrency r = true) ∨
    (∃ row, cleanRow r = .ok row ∧ hasMalformedCurrency r = false) := by
  unfold cleanRow
  cases h1 : clean_currency r.price with
  | error e =>
    obtain ⟨hm, ht⟩ := malformed_of_error _ _ h1
    exact .inl ⟨e, rfl, ht, by simp [hasMalformedCurrency, hm]⟩
  | ok v1 =>
  cases h2 : clean_currency r.revenueGenerated with
  | error e =>
    obtain ⟨hm, ht⟩ := malformed_of_error _ _ h2
    exact .inl ⟨e, rfl, ht, by simp [hasMalformedCurrency, hm]⟩
  | ok v2 =>
  cases h3 : clean_currency r.shippingCosts with
  | error e =>
    obtain ⟨hm, ht⟩ := malformed_of_error _ _ h3
    exact .inl ⟨e, rfl, ht, by simp [hasMalformedCurrency, hm]⟩
  | ok v3 =>
  cases h4 : clean_currency r.manufacturingCosts with
  | error e =>
    obtain ⟨hm, ht⟩ := malformed_of_error _ _ h4
    exact .inl ⟨e, rfl, ht, by simp [hasMalformedCurrency, hm]⟩
  | ok v4 =>
  cases h5 : clean_currency r.costs with
  | error e =>
    obtain ⟨hm, ht⟩ := malformed_of_error _ _ h5
    exact .inl ⟨e, rfl, ht, by simp [hasMalformedCurrency, hm]⟩
  | ok v5 =>
    refine .inr ⟨_, rfl, ?_⟩
    simp [hasMalformedCurrency, malformed_of_ok _ _ h1, malformed_of_ok _ _ h2,
      malformed_of_ok _ _ h3, malformed_of_ok _ _ h4, malformed_of_ok _ _ h5]

theorem mapExcept_error_of_mem {α β : Type} (f : α → Except String β) (l : List α)
    (a : α) (ha : a ∈ l) (hfa : ∀ b, f a ≠ .ok b) :
    ∃ m, mapExcept f l = .error m := by
  induction l with
  | nil => cases ha
  | cons x xs ih =>
    cases hx : f x with
    | error e => exact ⟨e, by simp [mapExcept, hx]⟩
    | ok b =>
      rcases List.mem_cons.mp ha with rfl | ha'
      · exact absurd hx (hfa b)
      · obtain ⟨m, hm⟩ := ih ha'
        exact ⟨m, by simp [mapExcept, hx, hm]⟩

theorem mapExcept_error_shape {α β : Type} (f : α → Except String β)
    (P : String → Prop) (hf : ∀ a m, f a = .error m → P m)
    (l : List α) (m : String) (h : mapExcept f l = .error m) : P m := by
  induction l with
  | nil => simp [mapExcept] at h
  | cons x xs ih =>
    cases hx : f x with
    | error e =>
      simp only [mapExcept, hx] at h
      cases h
      exact hf x m hx
    | ok b =>
      cases hxs : mapExcept f xs with
      | error e =>
        simp only [mapExcept, hx, hxs] at h
        cases h
        exact ih hxs
      | ok bs => simp [mapExcept, hx, hxs] at h

/-- C7: a currency-bearing cell holding text that cannot be parsed to a number
makes the load fail with the interpreter's descriptive `ValueError` message
(naming the offending text) rather than silently producing NaN, and the error
is fatal to startup: `df = load_data()` runs at module top level, so nothing
downstream of the load is built. -/
theorem malformed_currency_fatal (rows : List RawRow)
    (h : ∃ r ∈ rows, hasMalformedCurrency r = true) :
    ∃ msg, load_data rows = .error msg ∧
      (∃ t, msg = "could not convert string to float: " ++ t) ∧
      startup rows = .error msg := by
  obtain ⟨r, hr, hmal⟩ := h
  rcases cleanRow_cases r with ⟨m, hm, _, _⟩ | ⟨row, hrow, hfalse⟩
  · obtain ⟨msg, hmsg⟩ := mapExcept_error_of_mem cleanRow rows r hr
      (fun b hb => by rw [hm] at hb; cases hb)
    refine ⟨msg, hmsg, ?_, by simp [startup, load_data] at hmsg ⊢; simp [hmsg]⟩
    refine mapExcept_error_shape cleanRow
      (fun m' => ∃ t, m' = "could not convert string to float: " ++ t) ?_ rows msg hmsg
    intro a m' hm'
    rcases cleanRow_cases a with ⟨m₀, hm₀, ht₀, _⟩ | ⟨row₀, hrow₀, _⟩
    · rw [hm₀] at hm'
      cases hm'
      exact ht₀
    · rw [hrow₀] at hm'
      cases hm'
  · rw [hfalse] at hmal
    cases hmal

/-- C7 witness: a concrete raw row whose `Price` cell is the text `abc` makes
the load and the startup fail with the descriptive conversion error. -/
theorem malformed_currency_fatal_witness :
    ∃ msg, load_data [badRow] = .error msg ∧
      (∃ t, msg = "could not convert string to float: " ++ t) ∧
      startup [badRow] = .error msg :=
  malformed_currency_fatal [badRow] ⟨badRow, List.mem_singleton.mpr rfl, by decide⟩

end SupplyChainDash
